import Mathlib

/-!
# Verification of the Alexa / Home Assistant bridge server

Shallow embedding of `bridge-server/app.py`: the tool executor
(`execute_tool`), the Claude tool-use orchestration loop
(`process_command_with_claude`) and the `/process` endpoint
(`process_alexa_command`), together with theorems about the claims
of the specification.

Modelling conventions:
* JSON values (Python dicts/lists produced by `json`, FastAPI and the
  Anthropic SDK) are the inductive `JVal`; JSON numbers are modelled as
  integers (no claim computes with fractional values).
* The outbound Home Assistant HTTP client is a function from a request
  (`HttpCall`) to either a transport failure (carrying the message of the
  raised exception) or an `HttpResponse`; every issued request is recorded
  in an ordered trace.
* Python exceptions are the inductive `PyExc`; `str(e)` is `PyExc.toMsg`.
* The Anthropic client is a function from (number of calls made so far,
  message list) to either a failure message or a response.
* Wall-clock time (used only to build history-period URLs) is the
  environment function `startIso`.
-/

/-- JSON-like values: Python dicts, lists and scalars as they appear in
request bodies, responses and tool inputs. Numbers are modelled as `Int`. -/
inductive JVal where
  | null
  | bool (b : Bool)
  | num (n : Int)
  | str (s : String)
  | arr (xs : List JVal)
  | obj (fields : List (String × JVal))

/-- Python truthiness (`if x:`) for the values a JSON object can hold. -/
def truthy : JVal → Bool
  | .null => false
  | .bool b => b
  | .num n => n != 0
  | .str s => s != ""
  | .arr xs => !xs.isEmpty
  | .obj fs => !fs.isEmpty

/-- The Python type name of a value, used in exception messages. -/
def pyTypeName : JVal → String
  | .null => "NoneType"
  | .bool _ => "bool"
  | .num _ => "int"
  | .str _ => "str"
  | .arr _ => "list"
  | .obj _ => "dict"

/-- Python `repr(v)` (modulo string-escape details) for the values a JSON
object can hold; only reached from `pyStr` on containers. -/
def pyRepr : JVal → String
  | .null => "None"
  | .bool true => "True"
  | .bool false => "False"
  | .num n => toString n
  | .str s => "\x27" ++ s ++ "\x27"
  | .arr xs => "[" ++ String.intercalate ", " (xs.attach.map fun x => pyRepr x.1) ++ "]"
  | .obj fs =>
    "\x7b" ++
      String.intercalate ", "
        (fs.attach.map fun kv => "\x27" ++ kv.1.1 ++ "\x27: " ++ pyRepr kv.1.2) ++
      "\x7d"
decreasing_by
  · have h := List.sizeOf_lt_of_mem x.2
    cases x with | mk v hv => simp at h ⊢; omega
  · have h := List.sizeOf_lt_of_mem kv.2
    cases kv with | mk v hv => cases v with | mk k w => simp at h ⊢; omega

/-- `str(v)` for the values interpolated into f-string URLs. For strings it
is the string itself; `str` falls back to `repr` on containers. -/
def pyStr : JVal → String
  | .str s => s
  | v => pyRepr v

/-- Python `s.split(".")[0]`: the characters before the first dot
(the whole string when there is no dot). -/
def pySplitHeadDot (s : String) : String :=
  String.mk (s.data.takeWhile (fun c => c != '.'))

/-- Python whitespace for `str.strip()`. -/
def pySpace (c : Char) : Bool :=
  c == ' ' || c == '\t' || c == '\n' || c == '\r' || c == '\x0b' || c == '\x0c'

/-- Python `s.strip()`: drop whitespace from both ends. -/
def pyStrip (s : String) : String :=
  String.mk (((s.data.dropWhile pySpace).reverse.dropWhile pySpace).reverse)

/-- Python `s.startswith(pre)`. -/
def pyStartsWith (s pre : String) : Bool :=
  pre.data.isPrefixOf s.data

/-- `d[k] = v` on an insertion-ordered Python dict: replace in place if the
key exists, else append. -/
def objSet (fs : List (String × JVal)) (k : String) (v : JVal) : List (String × JVal) :=
  match fs with
  | [] => [(k, v)]
  | (k', v') :: rest => if k' = k then (k, v) :: rest else (k', v') :: objSet rest k v

/-- Python `base.update(new)`: set each key of `new` in order. -/
def objUpdate (base : List (String × JVal)) : List (String × JVal) → List (String × JVal)
  | [] => base
  | (k, v) :: rest => objUpdate (objSet base k v) rest

/-- JSON string escaping as done by `json.dumps` (the common escapes). -/
def jsonEscapeChar (c : Char) : String :=
  if c == '"' then "\\\""
  else if c == '\\' then "\\\\"
  else if c == '\n' then "\\n"
  else if c == '\r' then "\\r"
  else if c == '\t' then "\\t"
  else String.mk [c]

/-- A JSON-quoted string literal. -/
def jsonQuote (s : String) : String :=
  "\"" ++ String.join (s.data.map jsonEscapeChar) ++ "\""

/-- `json.dumps(v, ensure_ascii=False)` with the default separators. -/
def jsonDumps : JVal → String
  | .null => "null"
  | .bool true => "true"
  | .bool false => "false"
  | .num n => toString n
  | .str s => jsonQuote s
  | .arr xs => "[" ++ String.intercalate ", " (xs.attach.map fun x => jsonDumps x.1) ++ "]"
  | .obj fs =>
    "\x7b" ++
      String.intercalate ", "
        (fs.attach.map fun kv => jsonQuote kv.1.1 ++ ": " ++ jsonDumps kv.1.2) ++
      "\x7d"
decreasing_by
  · have h := List.sizeOf_lt_of_mem x.2
    cases x with | mk v hv => simp at h ⊢; omega
  · have h := List.sizeOf_lt_of_mem kv.2
    cases kv with | mk v hv => cases v with | mk k w => simp at h ⊢; omega

/-- An outbound HTTP request issued through the shared `httpx` client. -/
structure HttpCall where
  method : String
  url : String
  body : JVal

/-- An HTTP response: status code and decoded JSON body. -/
structure HttpResponse where
  status : Nat
  body : JVal

/-- The ordered list of HTTP requests a tool execution issued. -/
abbrev Trace := List HttpCall

/-- httpx `Response.is_success`: status in 2xx. -/
def isSuccessStatus (st : Nat) : Bool := 200 ≤ st && st ≤ 299

/-- Python exceptions that can arise inside `execute_tool`. -/
inductive PyExc where
  /-- `d[k]` with `k` missing. -/
  | keyError (k : String)
  /-- `raise_for_status` on a non-2xx response. -/
  | httpStatusError (status : Nat) (url : String)
  /-- iterating a non-list value. -/
  | notIterable (tname : String)
  /-- attribute access (`.split`, `.startswith`) on the wrong type. -/
  | noAttribute (tname attr : String)
  /-- `dict.update` with a non-mapping argument. -/
  | notAMapping (tname : String)
  /-- indexing `s["entity_id"]` on a non-dict value. -/
  | notSubscriptable (tname : String)
  /-- `timedelta(hours=h)` with a non-numeric `h`. -/
  | badHours (tname : String)
  /-- a network-level failure raised by the HTTP client, carrying `str(e)`. -/
  | transportError (m : String)

/-- `str(e)` for each exception, as caught by `except Exception as e`. -/
def PyExc.toMsg : PyExc → String
  | .keyError k => "\x27" ++ k ++ "\x27"
  | .httpStatusError st url =>
    "HTTP status error \x27" ++ toString st ++ "\x27 for url \x27" ++ url ++ "\x27"
  | .notIterable t => "TypeError: \x27" ++ t ++ "\x27 object is not iterable"
  | .noAttribute t a => "AttributeError: \x27" ++ t ++ "\x27 object has no attribute \x27" ++ a ++ "\x27"
  | .notAMapping t => "TypeError: \x27" ++ t ++ "\x27 object is not a mapping"
  | .notSubscriptable t => "TypeError: \x27" ++ t ++ "\x27 object is not subscriptable"
  | .badHours t => "TypeError: unsupported type for timedelta hours component: " ++ t
  | .transportError m => m

/-- The external environment of the server: Home Assistant base URL, the
outbound HTTP client (a transport failure is `.error str(e)`), and the
wall clock rendered as `(datetime.now() - timedelta(hours=h)).isoformat()`. -/
structure Env where
  haUrl : String
  backend : HttpCall → Except String HttpResponse
  startIso : Int → String

/-- Issue one HTTP request. `check` is whether the source calls
`response.raise_for_status()` on the result. -/
def httpDo (env : Env) (c : HttpCall) (check : Bool) : Except PyExc HttpResponse :=
  match env.backend c with
  | .error m => .error (.transportError m)
  | .ok resp =>
    if check && !isSuccessStatus resp.status then .error (.httpStatusError resp.status c.url)
    else .ok resp

/-- `GET /api/states/{entity_id}`. -/
def stateCall (env : Env) (eid : JVal) : HttpCall :=
  ⟨"GET", env.haUrl ++ "/api/states/" ++ pyStr eid, .null⟩

/-- `GET /api/states`. -/
def statesCall (env : Env) : HttpCall :=
  ⟨"GET", env.haUrl ++ "/api/states", .null⟩

/-- `s["entity_id"]` followed by `.startswith`: the entity id of a state
object, or the exception Python would raise. -/
def entityIdStr : JVal → Except PyExc String
  | .obj fs =>
    match fs.lookup "entity_id" with
    | some (.str s) => .ok s
    | some v => .error (.noAttribute (pyTypeName v) "startswith")
    | none => .error (.keyError "entity_id")
  | v => .error (.notSubscriptable (pyTypeName v))

/-- The list comprehension
`[s for s in all_states if s["entity_id"].startswith(pre)]`. -/
def filterByDomain (pre : String) : List JVal → Except PyExc (List JVal)
  | [] => .ok []
  | s :: rest =>
    match entityIdStr s with
    | .error e => .error e
    | .ok eid =>
      match filterByDomain pre rest with
      | .error e => .error e
      | .ok kept => .ok (if pyStartsWith eid pre then s :: kept else kept)

/-- The per-entity loop of `get_home_state`: one `GET /api/states/{id}` per
requested id, aggregating the JSON bodies in order. -/
def getStatesLoop (env : Env) : List JVal → List JVal → Trace → Except PyExc JVal × Trace
  | [], acc, tr => (.ok (.obj [("states", .arr acc)]), tr)
  | eid :: rest, acc, tr =>
    let c := stateCall env eid
    match httpDo env c true with
    | .error e => (.error e, tr ++ [c])
    | .ok resp => getStatesLoop env rest (acc ++ [resp.body]) (tr ++ [c])

/-- The `get_home_state` branch of `execute_tool`. -/
def toolGetHomeState (env : Env) (input : List (String × JVal)) : Except PyExc JVal × Trace :=
  let v := (input.lookup "entity_ids").getD .null
  if truthy v then
    match v with
    | .arr ids => getStatesLoop env ids [] []
    | w => (.error (.notIterable (pyTypeName w)), [])
  else
    let c := statesCall env
    match httpDo env c true with
    | .error e => (.error e, [c])
    | .ok resp =>
      let dv := (input.lookup "domain").getD .null
      if truthy dv then
        match resp.body with
        | .arr states =>
          match filterByDomain (pyStr dv ++ ".") states with
          | .error e => (.error e, [c])
          | .ok kept => (.ok (.obj [("states", .arr kept)]), [c])
        | w => (.error (.notIterable (pyTypeName w)), [c])
      else (.ok (.obj [("states", resp.body)]), [c])

/-- Build `{"entity_id": eid}` and merge `attributes` into it when the
(truthy) key is supplied, as `data.update(tool_input["attributes"])`. -/
def deviceData (eid : JVal) (attrs : Option JVal) : Except PyExc (List (String × JVal)) :=
  match attrs with
  | some a =>
    if truthy a then
      match a with
      | .obj fs => .ok (objUpdate [("entity_id", eid)] fs)
      | v => .error (.notAMapping (pyTypeName v))
    else .ok [("entity_id", eid)]
  | none => .ok [("entity_id", eid)]

/-- The `control_device` branch of `execute_tool`. -/
def toolControlDevice (env : Env) (input : List (String × JVal)) : Except PyExc JVal × Trace :=
  match input.lookup "entity_id" with
  | none => (.error (.keyError "entity_id"), [])
  | some eid =>
    match input.lookup "action" with
    | none => (.error (.keyError "action"), [])
    | some act =>
      match eid with
      | .str s =>
        let domain := pySplitHeadDot s
        let url := env.haUrl ++ "/api/services/" ++ domain ++ "/" ++ pyStr act
        match deviceData eid (input.lookup "attributes") with
        | .error e => (.error e, [])
        | .ok data =>
          let c : HttpCall := ⟨"POST", url, .obj data⟩
          match httpDo env c true with
          | .error e => (.error e, [c])
          | .ok _ =>
            (.ok (.obj [("success", .bool true), ("action", act), ("entity", eid)]), [c])
      | v => (.error (.noAttribute (pyTypeName v) "split"), [])

/-- `POST /api/services/climate/set_hvac_mode`. -/
def climateModeCall (env : Env) (eid hv : JVal) : HttpCall :=
  ⟨"POST", env.haUrl ++ "/api/services/climate/set_hvac_mode",
    .obj [("entity_id", eid), ("hvac_mode", hv)]⟩

/-- `POST /api/services/climate/set_temperature`. -/
def climateTempCall (env : Env) (eid t : JVal) : HttpCall :=
  ⟨"POST", env.haUrl ++ "/api/services/climate/set_temperature",
    .obj [("entity_id", eid), ("temperature", t)]⟩

/-- The tail of `control_climate`: send the temperature (with status check)
only when the `temperature` key is in the input, then report success. -/
def climateTempPhase (env : Env) (input : List (String × JVal)) (eid : JVal) (tr : Trace) :
    Except PyExc JVal × Trace :=
  match input.lookup "temperature" with
  | some t =>
    let c := climateTempCall env eid t
    match httpDo env c true with
    | .error e => (.error e, tr ++ [c])
    | .ok _ => (.ok (.obj [("success", .bool true), ("entity", eid)]), tr ++ [c])
  | none => (.ok (.obj [("success", .bool true), ("entity", eid)]), tr)

/-- The `control_climate` branch of `execute_tool`: when `hvac_mode` is
supplied the mode-set call is issued first and its HTTP status is *not*
checked (the source does not call `raise_for_status` on it). -/
def toolControlClimate (env : Env) (input : List (String × JVal)) : Except PyExc JVal × Trace :=
  match input.lookup "entity_id" with
  | none => (.error (.keyError "entity_id"), [])
  | some eid =>
    match input.lookup "hvac_mode" with
    | some hv =>
      let c := climateModeCall env eid hv
      match httpDo env c false with
      | .error e => (.error e, [c])
      | .ok _ => climateTempPhase env input eid [c]
    | none => climateTempPhase env input eid []

/-- `POST /api/services/scene/turn_on`. -/
def sceneCall (env : Env) (sid : JVal) : HttpCall :=
  ⟨"POST", env.haUrl ++ "/api/services/scene/turn_on", .obj [("entity_id", sid)]⟩

/-- The `execute_scene` branch of `execute_tool`. -/
def toolExecuteScene (env : Env) (input : List (String × JVal)) : Except PyExc JVal × Trace :=
  match input.lookup "scene_id" with
  | none => (.error (.keyError "scene_id"), [])
  | some sid =>
    let c := sceneCall env sid
    match httpDo env c true with
    | .error e => (.error e, [c])
    | .ok _ => (.ok (.obj [("success", .bool true), ("scene", sid)]), [c])

/-- Build the payload of `call_service`: optional truthy `entity_id`, then
merge the optional truthy `data` mapping. -/
def callServiceData (input : List (String × JVal)) : Except PyExc (List (String × JVal)) :=
  let d0 : List (String × JVal) :=
    match input.lookup "entity_id" with
    | some v => if truthy v then [("entity_id", v)] else []
    | none => []
  match input.lookup "data" with
  | some v =>
    if truthy v then
      match v with
      | .obj fs => .ok (objUpdate d0 fs)
      | w => .error (.notAMapping (pyTypeName w))
    else .ok d0
  | none => .ok d0

/-- The `call_service` branch of `execute_tool`. -/
def toolCallService (env : Env) (input : List (String × JVal)) : Except PyExc JVal × Trace :=
  match input.lookup "domain" with
  | none => (.error (.keyError "domain"), [])
  | some dom =>
    match input.lookup "service" with
    | none => (.error (.keyError "service"), [])
    | some svc =>
      let url := env.haUrl ++ "/api/services/" ++ pyStr dom ++ "/" ++ pyStr svc
      match callServiceData input with
      | .error e => (.error e, [])
      | .ok data =>
        let c : HttpCall := ⟨"POST", url, .obj data⟩
        match httpDo env c true with
        | .error e => (.error e, [c])
        | .ok _ => (.ok (.obj [("success", .bool true)]), [c])

/-- `GET /api/history/period/{start}?filter_entity_id={id}`. -/
def historyCall (env : Env) (hours : Int) (eid : JVal) : HttpCall :=
  ⟨"GET",
    env.haUrl ++ "/api/history/period/" ++ env.startIso hours ++ "?filter_entity_id=" ++ pyStr eid,
    .null⟩

/-- The per-entity loop of `get_history`. -/
def getHistoryLoop (env : Env) (hours : Int) :
    List JVal → List JVal → Trace → Except PyExc JVal × Trace
  | [], acc, tr => (.ok (.obj [("histories", .arr acc)]), tr)
  | eid :: rest, acc, tr =>
    let c := historyCall env hours eid
    match httpDo env c true with
    | .error e => (.error e, tr ++ [c])
    | .ok resp =>
      getHistoryLoop env hours rest
        (acc ++ [.obj [("entity_id", eid), ("history", resp.body)]]) (tr ++ [c])

/-- The `get_history` branch of `execute_tool`. -/
def toolGetHistory (env : Env) (input : List (String × JVal)) : Except PyExc JVal × Trace :=
  match input.lookup "entity_ids" with
  | none => (.error (.keyError "entity_ids"), [])
  | some v =>
    match (input.lookup "hours").getD (.num 24) with
    | .num h =>
      match v with
      | .arr ids => getHistoryLoop env h ids [] []
      | w => (.error (.notIterable (pyTypeName w)), [])
    | w => (.error (.badHours (pyTypeName w)), [])

/-- The body of `execute_tool` before the enclosing `try/except`: the
`if/elif` chain on the tool name, with the unknown-tool fallthrough. -/
def executeToolBody (env : Env) (tool_name : String) (input : List (String × JVal)) :
    Except PyExc JVal × Trace :=
  if tool_name = "get_home_state" then toolGetHomeState env input
  else if tool_name = "control_device" then toolControlDevice env input
  else if tool_name = "control_climate" then toolControlClimate env input
  else if tool_name = "execute_scene" then toolExecuteScene env input
  else if tool_name = "call_service" then toolCallService env input
  else if tool_name = "get_history" then toolGetHistory env input
  else (.ok (.obj [("error", .str ("Tool desconhecido: " ++ tool_name))]), [])

/-- `execute_tool`: the body wrapped in `try/except Exception as e`, which
converts any raised exception into `{"error": str(e)}`. The second
component is the ordered trace of HTTP requests that were issued. -/
def execute_tool (env : Env) (tool_name : String) (tool_input : List (String × JVal)) :
    JVal × Trace :=
  match executeToolBody env tool_name tool_input with
  | (.ok v, tr) => (v, tr)
  | (.error e, tr) => (.obj [("error", .str e.toMsg)], tr)

/-- The names of the six members of the tool catalog (`TOOLS` in the
source; the schemas and descriptions are prompt data with no behaviour). -/
def TOOL_NAMES : List String :=
  ["get_home_state", "control_device", "control_climate", "execute_scene",
   "call_service", "get_history"]

/-- A content fragment of a Claude response: plain text, or a tool-use
request `{id, name, input}`. -/
inductive ContentBlock where
  | text (t : String)
  | toolUse (id name : String) (input : List (String × JVal))

/-- A Claude response: `stop_reason` and the list of content fragments. -/
structure LLMResponse where
  stop_reason : String
  content : List ContentBlock

/-- One element of the tool-results turn:
`{"type": "tool_result", "tool_use_id": ..., "content": json.dumps(result)}`. -/
structure ToolResultEntry where
  tool_use_id : String
  content : String

/-- The content of one conversation turn. -/
inductive MsgContent where
  | text (s : String)
  | blocks (bs : List ContentBlock)
  | toolResults (rs : List ToolResultEntry)

/-- One conversation turn sent to the Claude API. -/
structure Message where
  role : String
  content : MsgContent

/-- The initial user turn. -/
def mkUserMsg (s : String) : Message := ⟨"user", .text s⟩

/-- The assistant turn replayed verbatim (`{"role": "assistant",
"content": response.content}`). -/
def assistantTurn (bs : List ContentBlock) : Message := ⟨"assistant", .blocks bs⟩

/-- The tool-results turn (`{"role": "user", "content": tool_results}`). -/
def toolResultsTurn (rs : List ToolResultEntry) : Message := ⟨"user", .toolResults rs⟩

/-- The Claude client: from (number of calls already made in this request,
message list) to a response, or the message of the raised exception. -/
abbrev LLM := Nat → List Message → Except String LLMResponse

/-- The tool-execution pass over one response's content: every `tool_use`
fragment is executed in order and becomes one `tool_result` entry carrying
its invocation id and `json.dumps` of the result. -/
def runToolUses (env : Env) (blocks : List ContentBlock) : List ToolResultEntry :=
  blocks.filterMap fun b =>
    match b with
    | .text _ => none
    | .toolUse id name input => some ⟨id, jsonDumps (execute_tool env name input).1⟩

/-- The tool-use requests `(id, name, input)` contained in a content list. -/
def toolRequests (blocks : List ContentBlock) : List (String × String × List (String × JVal)) :=
  blocks.filterMap fun b =>
    match b with
    | .text _ => none
    | .toolUse id name input => some (id, name, input)

/-- Final-answer extraction: concatenate the `.text` of every block that has
one (tool-use blocks have none), then `.strip()`. -/
def extractFinal (resp : LLMResponse) : String :=
  pyStrip (resp.content.foldl
    (fun acc b => match b with | .text t => acc ++ t | .toolUse _ _ _ => acc) "")

/-- The user message: the command wrapped in the fixed sentence, and the
serialized context appended when the context dict is truthy. -/
def buildUserMessage (command : String) (context : List (String × JVal)) : String :=
  let base := "O usuário disse via Alexa: \x27" ++ command ++ "\x27"
  if context.isEmpty then base
  else base ++ "\n\nContexto adicional: " ++ jsonDumps (.obj context)

/-- The message list sent on every loop iteration after the first call:
the original user turn, the assistant's tool-request turn, and a single
tool-results turn — earlier iterations' turns are not kept. -/
def loopMessages (um : String) (resp : LLMResponse) (results : List ToolResultEntry) :
    List Message :=
  [mkUserMsg um, assistantTurn resp.content, toolResultsTurn results]

/-- The apology prefixed to `str(e)` when the Claude call raises. -/
def apologyHead : String := "Desculpe, tive um problema ao processar seu pedido: "

/-- The outcome of one request: the speech text and, as instrumentation for
the theorems, the ordered list of message lists sent to the Claude API
(one entry per API call, failed calls included). -/
structure RunResult where
  speech : String
  calls : List (List Message)

/-- The `while response.stop_reason == "tool_use"` loop, fuel-indexed:
`none` means the source loop would still be running after `fuel` further
iterations (the source has no iteration bound). -/
def orchLoop (llm : LLM) (env : Env) (um : String) :
    Nat → Nat → LLMResponse → List (List Message) → Option RunResult
  | 0, _, resp, trace =>
    if resp.stop_reason = "tool_use" then none
    else some ⟨extractFinal resp, trace⟩
  | fuel + 1, callIdx, resp, trace =>
    if resp.stop_reason = "tool_use" then
      let results := runToolUses env resp.content
      let msgs := loopMessages um resp results
      match llm callIdx msgs with
      | .error e => some ⟨apologyHead ++ e, trace ++ [msgs]⟩
      | .ok resp2 => orchLoop llm env um fuel (callIdx + 1) resp2 (trace ++ [msgs])
    else some ⟨extractFinal resp, trace⟩

/-- `process_command_with_claude`: build the user message, make the first
Claude call, run the tool-use loop; any exception from a Claude call is
caught and turned into the apology speech text. -/
def process_command_with_claude (llm : LLM) (env : Env) (fuel : Nat)
    (command : String) (context : List (String × JVal)) : Option RunResult :=
  let um := buildUserMessage command context
  let msgs0 := [mkUserMsg um]
  match llm 0 msgs0 with
  | .error e => some ⟨apologyHead ++ e, [msgs0]⟩
  | .ok resp => orchLoop llm env um fuel 1 resp [msgs0]

/-- The response model returned to the Alexa Lambda. -/
structure AlexaResponse where
  speech : String
  should_end_session : Bool
  card_title : Option String
  card_content : Option String

/-- The `/process` endpoint: static shared-secret check (`.error 401` is
`HTTPException(status_code=401)`), then the orchestrator, then the fixed
response envelope. The inner `Option` is the orchestrator's fuel bound. -/
def process_alexa_command (llm : LLM) (env : Env) (fuel : Nat) (bridgeApiKey : String)
    (command : String) (context : Option (List (String × JVal)))
    (x_api_key : Option String) : Except Nat (Option AlexaResponse) :=
  if x_api_key ≠ some bridgeApiKey then .error 401
  else
    .ok ((process_command_with_claude llm env fuel command (context.getD [])).map
      fun r => ⟨r.speech, true, some "Casa Inteligente", some r.speech⟩)

/-! ## Helper lemmas -/

theorem append_left_ne {a s t : String} (h : s ≠ t) : a ++ s ≠ a ++ t := by
  intro he
  apply h
  have hd := congrArg String.data he
  rw [String.data_append, String.data_append] at hd
  exact String.ext (List.append_cancel_left hd)

theorem append_ne_empty_of_left_ne_empty {s : String} (t : String) (h : s ≠ "") :
    s ++ t ≠ "" := by
  intro he
  apply h
  have hd := congrArg String.data he
  rw [String.data_append] at hd
  rcases List.append_eq_nil.mp hd with ⟨h1, _⟩
  exact String.ext h1

/-- The `try/except` wrapper does not change which HTTP requests were
issued. -/
theorem execute_tool_trace (env : Env) (n : String) (i : List (String × JVal)) :
    (execute_tool env n i).2 = (executeToolBody env n i).2 := by
  unfold execute_tool
  rcases h : executeToolBody env n i with ⟨r, tr⟩
  cases r <;> simp

/-! ## C5: unknown tool names -/

/-- C5. For every tool name outside the six-member catalog, `execute_tool`
returns the error result `{"error": "Tool desconhecido: <name>"}` naming
the unknown tool, issues no HTTP request, and raises nothing (it returns
normally; the error dict is a plain return, not a caught exception). -/
theorem unknown_tool_named_error (env : Env) (name : String) (input : List (String × JVal))
    (h : name ∉ TOOL_NAMES) :
    execute_tool env name input =
      (.obj [("error", .str ("Tool desconhecido: " ++ name))], []) := by
  simp only [TOOL_NAMES, List.mem_cons, List.mem_singleton, not_or] at h
  obtain ⟨h1, h2, h3, h4, h5, h6⟩ := h
  simp [execute_tool, executeToolBody, h1, h2, h3, h4, h5, h6]

/-- Witness for C5 at the concrete unknown name `"abracadabra"`. -/
theorem unknown_tool_named_error_witness :
    execute_tool ⟨"http://ha", fun _ => .ok ⟨200, .obj []⟩, fun _ => "t"⟩ "abracadabra" [] =
      (.obj [("error", .str ("Tool desconhecido: " ++ "abracadabra"))], []) :=
  unknown_tool_named_error _ "abracadabra" [] (by decide)

/-- Branch selection of the `if/elif` chain for `control_climate`. -/
theorem executeToolBody_control_climate (env : Env) (input : List (String × JVal)) :
    executeToolBody env "control_climate" input = toolControlClimate env input := rfl

/-- A demo environment whose backend always answers 200 with `{}`. -/
def demoEnv : Env := ⟨"http://ha", fun _ => .ok ⟨200, .obj []⟩, fun _ => "2026-01-01T00:00:00"⟩

/-- A demo environment whose backend always answers status 500. -/
def failEnv : Env := ⟨"http://ha", fun _ => .ok ⟨500, .null⟩, fun _ => "2026-01-01T00:00:00"⟩

/-! ## C3: mode-set strictly before temperature-set -/

/-- C3. (1) A `control_climate` invocation supplying `entity_id`,
`hvac_mode` and `temperature` issues exactly the mode-set call followed by
the temperature-set call, in that order (for any backend whose mode-set
request gets an HTTP answer, whatever its status, and whatever becomes of
the temperature-set request). (2) When no `temperature` is supplied, no
issued request targets the temperature-set endpoint. -/
theorem control_climate_mode_first :
    (∀ (env : Env) (input : List (String × JVal)) (eid hv t : JVal) (r : HttpResponse),
      input.lookup "entity_id" = some eid →
      input.lookup "hvac_mode" = some hv →
      input.lookup "temperature" = some t →
      env.backend (climateModeCall env eid hv) = .ok r →
      (execute_tool env "control_climate" input).2 =
        [climateModeCall env eid hv, climateTempCall env eid t]) ∧
    (∀ (env : Env) (input : List (String × JVal)),
      input.lookup "temperature" = none →
      ∀ c ∈ (execute_tool env "control_climate" input).2,
        c.url ≠ env.haUrl ++ "/api/services/climate/set_temperature") := by
  constructor
  · intro env input eid hv t r he hm ht hb
    rw [execute_tool_trace, executeToolBody_control_climate]
    simp only [toolControlClimate, he, hm, httpDo, hb, Bool.false_and, Bool.if_false_left]
    rcases h2 : httpDo env (climateTempCall env eid t) true with e | resp <;>
      simp [climateTempPhase, ht, h2]
  · intro env input ht c hc
    rw [execute_tool_trace, executeToolBody_control_climate] at hc
    have hne : ("/api/services/climate/set_hvac_mode" : String) ≠
        "/api/services/climate/set_temperature" := by decide
    cases he : input.lookup "entity_id" with
    | none => simp [toolControlClimate, he] at hc
    | some eid =>
      cases hm : input.lookup "hvac_mode" with
      | none =>
        simp [toolControlClimate, he, hm, climateTempPhase, ht] at hc
      | some hv =>
        have hmem : c ∈ [climateModeCall env eid hv] := by
          rcases hb : httpDo env (climateModeCall env eid hv) false with e | resp <;>
            simpa [toolControlClimate, he, hm, hb, climateTempPhase, ht] using hc
        rw [List.mem_singleton.mp hmem]
        exact append_left_ne hne

/-- Witness for C3: a concrete invocation with mode and temperature issues
the two calls in order, and a mode-only invocation never hits the
temperature endpoint. -/
theorem control_climate_mode_first_witness :
    (execute_tool demoEnv "control_climate"
        [("entity_id", .str "climate.sala"), ("hvac_mode", .str "cool"),
         ("temperature", .num 22)]).2 =
      [climateModeCall demoEnv (.str "climate.sala") (.str "cool"),
       climateTempCall demoEnv (.str "climate.sala") (.num 22)] ∧
    ∀ c ∈ (execute_tool demoEnv "control_climate"
        [("entity_id", .str "climate.sala"), ("hvac_mode", .str "cool")]).2,
      c.url ≠ demoEnv.haUrl ++ "/api/services/climate/set_temperature" :=
  ⟨control_climate_mode_first.1 demoEnv _ _ _ _ ⟨200, .obj []⟩ rfl rfl rfl rfl,
   control_climate_mode_first.2 demoEnv _ rfl⟩

/-! ## C9: the mode-set HTTP status is never checked -/

/-- C9. The status of the mode-set call is never inspected: (1) a mode-only
`control_climate` invocation returns `{"success": true, "entity": eid}`
for *any* HTTP answer to the mode-set call (e.g. a 500); (2) with a
temperature also supplied, the invocation succeeds provided only that the
temperature-set call gets a 2xx answer — the mode-set status is still
arbitrary. -/
theorem control_climate_ignores_mode_status :
    (∀ (env : Env) (input : List (String × JVal)) (eid hv : JVal) (r : HttpResponse),
      input.lookup "entity_id" = some eid →
      input.lookup "hvac_mode" = some hv →
      input.lookup "temperature" = none →
      env.backend (climateModeCall env eid hv) = .ok r →
      execute_tool env "control_climate" input =
        (.obj [("success", .bool true), ("entity", eid)], [climateModeCall env eid hv])) ∧
    (∀ (env : Env) (input : List (String × JVal)) (eid hv t : JVal) (r rt : HttpResponse),
      input.lookup "entity_id" = some eid →
      input.lookup "hvac_mode" = some hv →
      input.lookup "temperature" = some t →
      env.backend (climateModeCall env eid hv) = .ok r →
      env.backend (climateTempCall env eid t) = .ok rt →
      isSuccessStatus rt.status = true →
      execute_tool env "control_climate" input =
        (.obj [("success", .bool true), ("entity", eid)],
         [climateModeCall env eid hv, climateTempCall env eid t])) := by
  constructor
  · intro env input eid hv r he hm ht hb
    simp [execute_tool, executeToolBody_control_climate, toolControlClimate, he, hm,
      httpDo, hb, climateTempPhase, ht]
  · intro env input eid hv t r rt he hm ht hb hbt hst
    simp [execute_tool, executeToolBody_control_climate, toolControlClimate, he, hm,
      httpDo, hb, hbt, hst, climateTempPhase, ht]

/-- Witness for C9: against a backend that answers every request with
status 500, a mode-only invocation still reports success; and with a 200
backend, mode status 200 plus successful temperature call succeed. -/
theorem control_climate_ignores_mode_status_witness :
    execute_tool failEnv "control_climate"
        [("entity_id", .str "climate.sala"), ("hvac_mode", .str "heat")] =
      (.obj [("success", .bool true), ("entity", .str "climate.sala")],
       [climateModeCall failEnv (.str "climate.sala") (.str "heat")]) ∧
    execute_tool demoEnv "control_climate"
        [("entity_id", .str "climate.sala"), ("hvac_mode", .str "heat"),
         ("temperature", .num 18)] =
      (.obj [("success", .bool true), ("entity", .str "climate.sala")],
       [climateModeCall demoEnv (.str "climate.sala") (.str "heat"),
        climateTempCall demoEnv (.str "climate.sala") (.num 18)]) :=
  ⟨control_climate_ignores_mode_status.1 failEnv _ _ _ ⟨500, .null⟩ rfl rfl rfl rfl,
   control_climate_ignores_mode_status.2 demoEnv _ _ _ _ ⟨200, .obj []⟩ ⟨200, .obj []⟩
     rfl rfl rfl rfl rfl rfl⟩

/-! ## C6: get_home_state -/

/-- Branch selection of the `if/elif` chain for `get_home_state`. -/
theorem executeToolBody_get_home_state (env : Env) (input : List (String × JVal)) :
    executeToolBody env "get_home_state" input = toolGetHomeState env input := rfl

/-- The filter predicate of the domain comprehension:
`s["entity_id"].startswith(pre)` for well-formed state objects. -/
def stateKeep (pre : String) (s : JVal) : Bool :=
  match entityIdStr s with
  | .ok e => pyStartsWith e pre
  | .error _ => false

/-- On a snapshot whose every element is a state object with a string
`entity_id`, the comprehension keeps exactly the matching elements. -/
theorem filterByDomain_ok (pre : String) (states : List JVal)
    (hwf : ∀ s ∈ states, (entityIdStr s).isOk = true) :
    filterByDomain pre states = .ok (states.filter (stateKeep pre)) := by
  induction states with
  | nil => rfl
  | cons s rest ih =>
    have hs := hwf s (List.mem_cons_self s rest)
    cases he : entityIdStr s with
    | error e => rw [he] at hs; simp [Except.isOk, Except.toBool] at hs
    | ok e =>
      have hrest := ih (fun x hx => hwf x (List.mem_cons_of_mem s hx))
      have hk : stateKeep pre s = pyStartsWith e pre := by simp [stateKeep, he]
      cases hp : pyStartsWith e pre <;>
        simp [filterByDomain, he, hrest, List.filter_cons, hk, hp]

/-- The per-entity query loop aggregates one response body per id, in
order, and issues exactly one `GET /api/states/{id}` per id, in order. -/
theorem getStatesLoop_ok (env : Env) (f : JVal → HttpResponse) (ids : List JVal)
    (hb : ∀ id ∈ ids, env.backend (stateCall env id) = .ok (f id) ∧
      isSuccessStatus (f id).status = true) :
    ∀ acc tr, getStatesLoop env ids acc tr =
      (.ok (.obj [("states", .arr (acc ++ ids.map fun id => (f id).body))]),
       tr ++ ids.map (stateCall env)) := by
  induction ids with
  | nil => intro acc tr; simp [getStatesLoop]
  | cons id rest ih =>
    intro acc tr
    obtain ⟨hb1, hb2⟩ := hb id (List.mem_cons_self id rest)
    rw [getStatesLoop]
    simp only [httpDo, hb1, hb2, Bool.not_true, Bool.and_false, Bool.false_eq_true,
      if_false]
    rw [ih (fun x hx => hb x (List.mem_cons_of_mem id hx))]
    simp

/-- C6. (1) A `get_home_state` invocation with an empty `entity_ids` list
and a (non-empty) domain filter `d` fetches the full snapshot once and
returns exactly the state objects whose entity identifier starts with
`d ++ "."`. (2) With a non-empty `entity_ids` list, one state query is
issued per identifier, in order, and the bodies are aggregated in the same
order. -/
theorem get_home_state_contract :
    (∀ (env : Env) (input : List (String × JVal)) (d : String) (resp : HttpResponse)
        (states : List JVal),
      input.lookup "entity_ids" = some (.arr []) →
      input.lookup "domain" = some (.str d) → d ≠ "" →
      env.backend (statesCall env) = .ok resp →
      isSuccessStatus resp.status = true →
      resp.body = .arr states →
      (∀ s ∈ states, (entityIdStr s).isOk = true) →
      execute_tool env "get_home_state" input =
        (.obj [("states", .arr (states.filter (stateKeep (d ++ "."))))],
         [statesCall env])) ∧
    (∀ (env : Env) (input : List (String × JVal)) (ids : List JVal)
        (f : JVal → HttpResponse),
      input.lookup "entity_ids" = some (.arr ids) → ids ≠ [] →
      (∀ id ∈ ids, env.backend (stateCall env id) = .ok (f id) ∧
        isSuccessStatus (f id).status = true) →
      execute_tool env "get_home_state" input =
        (.obj [("states", .arr (ids.map fun id => (f id).body))],
         ids.map (stateCall env))) := by
  constructor
  · intro env input d resp states hids hd hd0 hb hst hbody hwf
    have hkeep := filterByDomain_ok (pyStr (.str d) ++ ".") states hwf
    simp only [execute_tool, executeToolBody_get_home_state, toolGetHomeState, hids,
      Option.getD_some, truthy, List.isEmpty_nil, Bool.not_true, Bool.false_eq_true,
      if_false, httpDo, hb, hst, Bool.not_true, Bool.and_false, hd, hbody, hkeep]
    simp [pyStr, bne, hd0]
  · intro env input ids f hids hne hb
    have hloop := getStatesLoop_ok env f ids hb [] []
    cases ids with
    | nil => exact absurd rfl hne
    | cons id rest =>
      simp only [execute_tool, executeToolBody_get_home_state, toolGetHomeState, hids,
        Option.getD_some, truthy, List.isEmpty_cons, Bool.not_false, if_true, hloop]
      simp at hloop
      simp [hloop]

/-- A demo environment with a two-entity state snapshot; individual state
queries are answered with a fixed state object. -/
def snapEnv : Env :=
  ⟨"http://ha",
   fun c =>
     if c.url = "http://ha/api/states" then
       .ok ⟨200, .arr [.obj [("entity_id", .str "light.sala"), ("state", .str "on")],
                       .obj [("entity_id", .str "sensor.temp"), ("state", .str "21")]]⟩
     else .ok ⟨200, .obj [("entity_id", .str "eco"), ("state", .str "ok")]⟩,
   fun _ => "2026-01-01T00:00:00"⟩

/-- Witness for C6: the domain filter keeps exactly the `light.` entity of
the two-entity snapshot, and a two-id query issues two state queries in
order and aggregates both bodies in order. -/
theorem get_home_state_contract_witness :
    execute_tool snapEnv "get_home_state"
        [("entity_ids", .arr []), ("domain", .str "light")] =
      (.obj [("states", .arr
        ([.obj [("entity_id", .str "light.sala"), ("state", .str "on")],
          .obj [("entity_id", .str "sensor.temp"), ("state", .str "21")]].filter
            (stateKeep ("light" ++ "."))))],
       [statesCall snapEnv]) ∧
    execute_tool snapEnv "get_home_state"
        [("entity_ids", .arr [.str "light.a", .str "sensor.b"])] =
      (.obj [("states", .arr ([JVal.str "light.a", JVal.str "sensor.b"].map
        fun _ => JVal.obj [("entity_id", .str "eco"), ("state", .str "ok")]))],
       [JVal.str "light.a", JVal.str "sensor.b"].map (stateCall snapEnv)) :=
  ⟨get_home_state_contract.1 snapEnv _ "light" ⟨200, _⟩ _ rfl rfl (by decide) rfl rfl rfl
     (by decide),
   get_home_state_contract.2 snapEnv _ _
     (fun _ => ⟨200, .obj [("entity_id", .str "eco"), ("state", .str "ok")]⟩) rfl
     (List.cons_ne_nil _ _)
     (by intro id hid; simp at hid; rcases hid with rfl | rfl <;> exact ⟨rfl, rfl⟩)⟩

/-! ## C2: per-invocation failure containment -/

/-- Provenance of an exception: a transport error always carries the
message of an actual backend failure; any other exception is fine as is
(its rendered message is non-empty by construction). -/
def ErrOk (env : Env) : PyExc → Prop
  | .transportError m => ∃ c, env.backend c = .error m
  | _ => True


theorem httpDo_errOk (env : Env) (c : HttpCall) (chk : Bool) (e : PyExc)
    (h : httpDo env c chk = .error e) : ErrOk env e := by
  unfold httpDo at h
  split at h
  · rename_i m hm; cases h; exact ⟨c, hm⟩
  · split at h
    · cases h; trivial
    · simp at h

theorem entityIdStr_errOk (env : Env) (s : JVal) (e : PyExc)
    (h : entityIdStr s = .error e) : ErrOk env e := by
  unfold entityIdStr at h
  split at h
  · split at h
    · simp at h
    · cases h; trivial
    · cases h; trivial
  · cases h; trivial

theorem filterByDomain_errOk (env : Env) (pre : String) (l : List JVal) (e : PyExc)
    (h : filterByDomain pre l = .error e) : ErrOk env e := by
  induction l with
  | nil => simp [filterByDomain] at h
  | cons s rest ih =>
    unfold filterByDomain at h
    split at h
    · rename_i e' he'; cases h; exact entityIdStr_errOk env s e he'
    · split at h
      · rename_i e' he'; cases h; exact ih he'
      · simp at h

theorem getStatesLoop_errOk (env : Env) (ids : List JVal) :
    ∀ acc tr e, (getStatesLoop env ids acc tr).1 = .error e → ErrOk env e := by
  induction ids with
  | nil => intro acc tr e h; simp [getStatesLoop] at h
  | cons id rest ih =>
    intro acc tr e h
    rw [getStatesLoop] at h
    split at h
    · rename_i e' he'; cases h; exact httpDo_errOk env _ _ _ he'
    · exact ih _ _ _ h

theorem toolGetHomeState_errOk (env : Env) (input : List (String × JVal)) (e : PyExc)
    (h : (toolGetHomeState env input).1 = .error e) : ErrOk env e := by
  unfold toolGetHomeState at h
  dsimp only at h
  split at h
  · split at h
    · exact getStatesLoop_errOk env _ _ _ _ h
    · cases h; trivial
  · split at h
    · rename_i e' he'; cases h; exact httpDo_errOk env _ _ _ he'
    · split at h
      · split at h
        · split at h
          · rename_i e' he'; cases h; exact filterByDomain_errOk env _ _ _ he'
          · simp at h
        · cases h; trivial
      · simp at h

theorem deviceData_errOk (env : Env) (eid : JVal) (attrs : Option JVal) (e : PyExc)
    (h : deviceData eid attrs = .error e) : ErrOk env e := by
  unfold deviceData at h
  split at h
  · split at h
    · split at h
      · simp at h
      · cases h; trivial
    · simp at h
  · simp at h

theorem toolControlDevice_errOk (env : Env) (input : List (String × JVal)) (e : PyExc)
    (h : (toolControlDevice env input).1 = .error e) : ErrOk env e := by
  unfold toolControlDevice at h
  dsimp only at h
  split at h
  · cases h; trivial
  · split at h
    · cases h; trivial
    · split at h
      · split at h
        · rename_i e' he'; cases h; exact deviceData_errOk env _ _ _ he'
        · split at h
          · rename_i e' he'; cases h; exact httpDo_errOk env _ _ _ he'
          · simp at h
      · cases h; trivial

theorem climateTempPhase_errOk (env : Env) (input : List (String × JVal)) (eid : JVal)
    (tr : Trace) (e : PyExc)
    (h : (climateTempPhase env input eid tr).1 = .error e) : ErrOk env e := by
  unfold climateTempPhase at h
  dsimp only at h
  split at h
  · split at h
    · rename_i e' he'; cases h; exact httpDo_errOk env _ _ _ he'
    · simp at h
  · simp at h

theorem toolControlClimate_errOk (env : Env) (input : List (String × JVal)) (e : PyExc)
    (h : (toolControlClimate env input).1 = .error e) : ErrOk env e := by
  unfold toolControlClimate at h
  dsimp only at h
  split at h
  · cases h; trivial
  · split at h
    · split at h
      · rename_i e' he'; cases h; exact httpDo_errOk env _ _ _ he'
      · exact climateTempPhase_errOk env _ _ _ _ h
    · exact climateTempPhase_errOk env _ _ _ _ h

theorem toolExecuteScene_errOk (env : Env) (input : List (String × JVal)) (e : PyExc)
    (h : (toolExecuteScene env input).1 = .error e) : ErrOk env e := by
  unfold toolExecuteScene at h
  dsimp only at h
  split at h
  · cases h; trivial
  · split at h
    · rename_i e' he'; cases h; exact httpDo_errOk env _ _ _ he'
    · simp at h

theorem callServiceData_errOk (env : Env) (input : List (String × JVal)) (e : PyExc)
    (h : callServiceData input = .error e) : ErrOk env e := by
  unfold callServiceData at h
  dsimp only at h
  split at h
  · split at h
    · split at h
      · simp at h
      · cases h; trivial
    · simp at h
  · simp at h

theorem toolCallService_errOk (env : Env) (input : List (String × JVal)) (e : PyExc)
    (h : (toolCallService env input).1 = .error e) : ErrOk env e := by
  unfold toolCallService at h
  dsimp only at h
  split at h
  · cases h; trivial
  · split at h
    · cases h; trivial
    · split at h
      · rename_i e' he'; cases h; exact callServiceData_errOk env _ _ he'
      · split at h
        · rename_i e' he'; cases h; exact httpDo_errOk env _ _ _ he'
        · simp at h

theorem getHistoryLoop_errOk (env : Env) (hours : Int) (ids : List JVal) :
    ∀ acc tr e, (getHistoryLoop env hours ids acc tr).1 = .error e → ErrOk env e := by
  induction ids with
  | nil => intro acc tr e h; simp [getHistoryLoop] at h
  | cons id rest ih =>
    intro acc tr e h
    rw [getHistoryLoop] at h
    split at h
    · rename_i e' he'; cases h; exact httpDo_errOk env _ _ _ he'
    · exact ih _ _ _ h

theorem toolGetHistory_errOk (env : Env) (input : List (String × JVal)) (e : PyExc)
    (h : (toolGetHistory env input).1 = .error e) : ErrOk env e := by
  unfold toolGetHistory at h
  split at h
  · cases h; trivial
  · split at h
    · split at h
      · exact getHistoryLoop_errOk env _ _ _ _ _ h
      · cases h; trivial
    · cases h; trivial

theorem executeToolBody_errOk (env : Env) (n : String) (i : List (String × JVal)) (e : PyExc)
    (h : (executeToolBody env n i).1 = .error e) : ErrOk env e := by
  unfold executeToolBody at h
  split at h
  · exact toolGetHomeState_errOk env i e h
  · split at h
    · exact toolControlDevice_errOk env i e h
    · split at h
      · exact toolControlClimate_errOk env i e h
      · split at h
        · exact toolExecuteScene_errOk env i e h
        · split at h
          · exact toolCallService_errOk env i e h
          · split at h
            · exact toolGetHistory_errOk env i e h
            · simp at h

/-- Every exception message produced inside `execute_tool` is non-empty,
provided the HTTP client's own exception messages are non-empty. -/
theorem errOk_toMsg_ne_empty (env : Env)
    (hb : ∀ c m, env.backend c = .error m → m ≠ "")
    (e : PyExc) (he : ErrOk env e) : e.toMsg ≠ "" := by
  cases e with
  | transportError m => obtain ⟨c, hc⟩ := he; exact hb c m hc
  | keyError k =>
    exact append_ne_empty_of_left_ne_empty _
      (append_ne_empty_of_left_ne_empty _ (by decide))
  | httpStatusError st url =>
    exact append_ne_empty_of_left_ne_empty _
      (append_ne_empty_of_left_ne_empty _
        (append_ne_empty_of_left_ne_empty _
          (append_ne_empty_of_left_ne_empty _ (by decide))))
  | notIterable t =>
    exact append_ne_empty_of_left_ne_empty _
      (append_ne_empty_of_left_ne_empty _ (by decide))
  | noAttribute t a =>
    exact append_ne_empty_of_left_ne_empty _
      (append_ne_empty_of_left_ne_empty _
        (append_ne_empty_of_left_ne_empty _
          (append_ne_empty_of_left_ne_empty _ (by decide))))
  | notAMapping t =>
    exact append_ne_empty_of_left_ne_empty _
      (append_ne_empty_of_left_ne_empty _ (by decide))
  | notSubscriptable t =>
    exact append_ne_empty_of_left_ne_empty _
      (append_ne_empty_of_left_ne_empty _ (by decide))
  | badHours t =>
    exact append_ne_empty_of_left_ne_empty _ (by decide)

/-- Modelled from the spec's ToolResult abstraction (the source returns
plain dicts): a result represents a failure — success flag false — exactly
when it carries an `"error"` message. -/
def resultIsFailure : JVal → Bool
  | .obj fs => (fs.lookup "error").isSome
  | _ => false

/-- C2. Whenever the body of a tool invocation raises (non-2xx status via
`raise_for_status`, a network failure from the HTTP client, or malformed
input hitting a `KeyError`/`TypeError`/`AttributeError`), `execute_tool`
catches the exception — it returns normally instead of propagating into
the orchestration loop — with the failure result `{"error": str(e)}`
whose success flag is false and whose error string is non-empty (assuming
the HTTP client's own exception messages are non-empty). -/
theorem execute_tool_absorbs_failures (env : Env) (name : String)
    (input : List (String × JVal)) (e : PyExc) (tr : Trace)
    (hb : ∀ c m, env.backend c = .error m → m ≠ "")
    (h : executeToolBody env name input = (.error e, tr)) :
    execute_tool env name input = (.obj [("error", .str e.toMsg)], tr) ∧
    e.toMsg ≠ "" ∧
    resultIsFailure (execute_tool env name input).1 = true := by
  have h1 : execute_tool env name input = (.obj [("error", .str e.toMsg)], tr) := by
    unfold execute_tool
    rw [h]
  have h2 : e.toMsg ≠ "" :=
    errOk_toMsg_ne_empty env hb e (executeToolBody_errOk env name input e (by rw [h]))
  refine ⟨h1, h2, ?_⟩
  rw [h1]
  simp [resultIsFailure]

/-- Witness for C2: against a backend answering 500, an `execute_scene`
invocation yields a caught `HTTPStatusError` converted into a non-empty
error result. -/
theorem execute_tool_absorbs_failures_witness :
    execute_tool failEnv "execute_scene" [("scene_id", .str "scene.x")] =
      (.obj [("error",
         .str (PyExc.httpStatusError 500 "http://ha/api/services/scene/turn_on").toMsg)],
       [sceneCall failEnv (.str "scene.x")]) ∧
    (PyExc.httpStatusError 500 "http://ha/api/services/scene/turn_on").toMsg ≠ "" ∧
    resultIsFailure
      (execute_tool failEnv "execute_scene" [("scene_id", .str "scene.x")]).1 = true :=
  execute_tool_absorbs_failures failEnv "execute_scene" [("scene_id", .str "scene.x")]
    (.httpStatusError 500 "http://ha/api/services/scene/turn_on")
    [sceneCall failEnv (.str "scene.x")]
    (fun c m hcm => by simp [failEnv] at hcm) rfl

/-! ## Orchestrator lemmas -/

/-- The tool pass produces exactly one result entry per tool-use request,
in order, keyed by the request's invocation id. -/
theorem runToolUses_eq (env : Env) (bs : List ContentBlock) :
    runToolUses env bs = (toolRequests bs).map
      (fun t => ⟨t.1, jsonDumps (execute_tool env t.2.1 t.2.2).1⟩) := by
  induction bs with
  | nil => rfl
  | cons b rest ih =>
    cases b with
    | text t => simpa [runToolUses, toolRequests, List.filterMap_cons] using ih
    | toolUse id name input =>
      simpa [runToolUses, toolRequests, List.filterMap_cons] using ih

/-! ## C7: a model that never requests tools -/

/-- C7. If the first response's stop reason is not `tool_use`, the loop
body never runs: exactly one Claude call is made (with the single user
turn), and the final answer is `extractFinal resp` — the concatenation of
the response's plain-text fragments, whitespace-stripped, verbatim. -/
theorem no_tool_use_single_call (llm : LLM) (env : Env) (fuel : Nat) (command : String)
    (context : List (String × JVal)) (resp : LLMResponse)
    (h0 : llm 0 [mkUserMsg (buildUserMessage command context)] = .ok resp)
    (h1 : resp.stop_reason ≠ "tool_use") :
    process_command_with_claude llm env fuel command context =
      some ⟨extractFinal resp, [[mkUserMsg (buildUserMessage command context)]]⟩ := by
  unfold process_command_with_claude
  dsimp only
  rw [h0]
  cases fuel <;> simp [orchLoop, h1]

/-- A scripted model that always answers plain text. -/
def plainLLM : LLM := fun _ _ => .ok ⟨"end_turn", [.text "  Tudo certo.  "]⟩

/-- Witness for C7 on `plainLLM`: one call, and the trimmed text comes
back verbatim. -/
theorem no_tool_use_single_call_witness :
    process_command_with_claude plainLLM demoEnv 7 "oi" [] =
      some ⟨extractFinal ⟨"end_turn", [.text "  Tudo certo.  "]⟩,
        [[mkUserMsg (buildUserMessage "oi" [])]]⟩ :=
  no_tool_use_single_call plainLLM demoEnv 7 "oi" [] _ rfl (by decide)

/-! ## C8: a model that requests one tool, then stops -/

/-- C8. With a first response whose tool requests are exactly one
invocation `(id, name, inp)` and a second response without tool use:
exactly two Claude calls are made; the second call's turn list is the
original command turn, the assistant's tool-request turn, and a single
tool-results turn holding exactly one entry whose `tool_use_id` is the
requested invocation's id. -/
theorem one_tool_then_stop_two_calls (llm : LLM) (env : Env) (fuel : Nat)
    (command : String) (context : List (String × JVal)) (id name : String)
    (inp : List (String × JVal)) (resp0 resp1 : LLMResponse)
    (h0 : llm 0 [mkUserMsg (buildUserMessage command context)] = .ok resp0)
    (hs0 : resp0.stop_reason = "tool_use")
    (hreq : toolRequests resp0.content = [(id, name, inp)])
    (h1 : ∀ msgs, llm 1 msgs = .ok resp1)
    (hs1 : resp1.stop_reason ≠ "tool_use") :
    process_command_with_claude llm env (fuel + 1) command context =
      some ⟨extractFinal resp1,
        [[mkUserMsg (buildUserMessage command context)],
         [mkUserMsg (buildUserMessage command context), assistantTurn resp0.content,
          toolResultsTurn [⟨id, jsonDumps (execute_tool env name inp).1⟩]]]⟩ := by
  unfold process_command_with_claude
  dsimp only
  rw [h0]
  simp only [orchLoop, hs0, if_true, runToolUses_eq, hreq, List.map_cons, List.map_nil,
    loopMessages, h1]
  cases fuel <;> simp [orchLoop, hs1, loopMessages]

/-- A scripted model requesting one `execute_scene` invocation, then
answering plain text. -/
def oneToolLLM : LLM := fun i _ =>
  if i = 0 then
    .ok ⟨"tool_use", [.toolUse "tu_1" "execute_scene" [("scene_id", .str "scene.cinema")]]⟩
  else .ok ⟨"end_turn", [.text "Cena ativada."]⟩

/-- Witness for C8 on `oneToolLLM`. -/
theorem one_tool_then_stop_two_calls_witness :
    process_command_with_claude oneToolLLM demoEnv 5 "modo cinema" [] =
      some ⟨extractFinal ⟨"end_turn", [.text "Cena ativada."]⟩,
        [[mkUserMsg (buildUserMessage "modo cinema" [])],
         [mkUserMsg (buildUserMessage "modo cinema" []),
          assistantTurn [.toolUse "tu_1" "execute_scene" [("scene_id", .str "scene.cinema")]],
          toolResultsTurn [⟨"tu_1",
            jsonDumps (execute_tool demoEnv "execute_scene"
              [("scene_id", .str "scene.cinema")]).1⟩]]]⟩ :=
  one_tool_then_stop_two_calls oneToolLLM demoEnv 4 "modo cinema" [] "tu_1"
    "execute_scene" [("scene_id", .str "scene.cinema")] _ _ rfl rfl rfl
    (fun _ => rfl) (by decide)

/-! ## C4: Claude-call failure degrades to an apology, not an HTTP error -/

/-- C4. When a Claude call raises — whether the very first call or a
continuation call inside the loop — the exception is caught by the
handler around the loop, the speech text becomes the fixed apology
(prefixed to `str(e)`), and the authenticated `/process` request still
returns a normal 200 envelope (`.ok`, never an HTTP error). -/
theorem llm_failure_apology_envelope :
    (∀ (llm : LLM) (env : Env) (fuel : Nat) (bridgeKey command : String)
        (context : Option (List (String × JVal))) (e : String),
      llm 0 [mkUserMsg (buildUserMessage command (context.getD []))] = .error e →
      process_alexa_command llm env fuel bridgeKey command context (some bridgeKey) =
        .ok (some ⟨apologyHead ++ e, true, some "Casa Inteligente",
          some (apologyHead ++ e)⟩)) ∧
    (∀ (llm : LLM) (env : Env) (fuel : Nat) (bridgeKey command : String)
        (context : Option (List (String × JVal))) (resp0 : LLMResponse) (e : String),
      llm 0 [mkUserMsg (buildUserMessage command (context.getD []))] = .ok resp0 →
      resp0.stop_reason = "tool_use" →
      (∀ msgs, llm 1 msgs = .error e) →
      process_alexa_command llm env (fuel + 1) bridgeKey command context (some bridgeKey) =
        .ok (some ⟨apologyHead ++ e, true, some "Casa Inteligente",
          some (apologyHead ++ e)⟩)) := by
  constructor
  · intro llm env fuel bridgeKey command context e h0
    unfold process_alexa_command
    rw [if_neg (fun hc => hc rfl)]
    unfold process_command_with_claude
    dsimp only
    rw [h0]
    simp
  · intro llm env fuel bridgeKey command context resp0 e h0 hs0 h1
    unfold process_alexa_command
    rw [if_neg (fun hc => hc rfl)]
    unfold process_command_with_claude
    dsimp only
    rw [h0]
    simp only [orchLoop, hs0, if_true, h1]
    simp

/-- A scripted model whose only call raises. -/
def downLLM : LLM := fun _ _ => .error "Connection refused"

/-- Witness for C4: the first call failing yields the apology inside a
normal envelope. -/
theorem llm_failure_apology_envelope_witness :
    process_alexa_command downLLM demoEnv 3 "chave" "acende a luz" none (some "chave") =
      .ok (some ⟨apologyHead ++ "Connection refused", true, some "Casa Inteligente",
        some (apologyHead ++ "Connection refused")⟩) :=
  llm_failure_apology_envelope.1 downLLM demoEnv 3 "chave" "acende a luz" none
    "Connection refused" rfl

/-! ## C10: the response envelope constants -/

/-- C10. Every authenticated `/process` request that completes returns an
envelope with `should_end_session = true`, `card_title = "Casa
Inteligente"`, and `card_content` exactly equal to the speech text —
whatever the orchestrator produced, apology case included. -/
theorem process_envelope_fixed (llm : LLM) (env : Env) (fuel : Nat)
    (bridgeKey command : String) (context : Option (List (String × JVal)))
    (a : AlexaResponse)
    (h : process_alexa_command llm env fuel bridgeKey command context (some bridgeKey) =
      .ok (some a)) :
    a.should_end_session = true ∧ a.card_title = some "Casa Inteligente" ∧
    a.card_content = some a.speech := by
  unfold process_alexa_command at h
  rw [if_neg (fun hc => hc rfl)] at h
  simp only [Except.ok.injEq] at h
  rcases hr : process_command_with_claude llm env fuel command (context.getD []) with _ | r
  · rw [hr] at h; cases h
  · rw [hr] at h
    cases h
    exact ⟨rfl, rfl, rfl⟩

/-- Witness for C10 at a concrete authenticated request. -/
theorem process_envelope_fixed_witness :
    (⟨extractFinal ⟨"end_turn", [.text "  Tudo certo.  "]⟩, true, some "Casa Inteligente",
      some (extractFinal ⟨"end_turn", [.text "  Tudo certo.  "]⟩)⟩ :
        AlexaResponse).should_end_session = true ∧
    (⟨extractFinal ⟨"end_turn", [.text "  Tudo certo.  "]⟩, true, some "Casa Inteligente",
      some (extractFinal ⟨"end_turn", [.text "  Tudo certo.  "]⟩)⟩ :
        AlexaResponse).card_title = some "Casa Inteligente" ∧
    (⟨extractFinal ⟨"end_turn", [.text "  Tudo certo.  "]⟩, true, some "Casa Inteligente",
      some (extractFinal ⟨"end_turn", [.text "  Tudo certo.  "]⟩)⟩ :
        AlexaResponse).card_content =
      some (⟨extractFinal ⟨"end_turn", [.text "  Tudo certo.  "]⟩, true,
        some "Casa Inteligente",
        some (extractFinal ⟨"end_turn", [.text "  Tudo certo.  "]⟩)⟩ :
          AlexaResponse).speech :=
  process_envelope_fixed plainLLM demoEnv 7 "chave" "oi" (some []) _ rfl

/-! ## C1: the turn list across loop iterations -/

/-- A scripted model that requests a tool on its first two calls, then
answers plain text. -/
def twoToolLLM : LLM := fun i _ =>
  if i = 0 then
    .ok ⟨"tool_use", [.toolUse "tu_a" "execute_scene" [("scene_id", .str "scene.a")]]⟩
  else if i = 1 then
    .ok ⟨"tool_use", [.toolUse "tu_b" "execute_scene" [("scene_id", .str "scene.b")]]⟩
  else .ok ⟨"end_turn", [.text "Feito."]⟩

/-- The message lists sent to the three Claude calls of the `twoToolLLM`
run. -/
def twoToolCalls : List (List Message) :=
  ((process_command_with_claude twoToolLLM demoEnv 10 "teste" []).getD ⟨"", []⟩).calls

/-- C1 counterexample. The claim predicts that each loop iteration's
message list extends the previous one by exactly two turns (so the third
call would carry 5 turns). On the two-tool-iteration run the third call
carries 3 turns, because the loop rebuilds `[user, assistant,
tool_results]` from scratch instead of appending. -/
theorem turn_list_not_append_only :
    ¬ (∀ i, i + 1 < twoToolCalls.length →
        (twoToolCalls.getD (i + 1) []).length = (twoToolCalls.getD i []).length + 2) := by
  intro hall
  have h1 := hall 1 (by decide)
  have e2 : (twoToolCalls.getD 2 []).length = 3 := by rfl
  have e1 : (twoToolCalls.getD 1 []).length = 3 := by rfl
  rw [e1, e2] at h1
  exact absurd h1 (by decide)

/-- What actually holds of the per-call message lists of one request: the
first call carries exactly the original user turn, and each later call `i`
carries exactly three turns — the original user turn, the assistant turn
holding precisely the content of the response to the *immediately
preceding* call `i - 1` (which requested tools), and one tool-results turn
holding precisely the results of executing *that* content's tool requests.
Earlier assistant/tool-results turns are gone: the list is these three
entries and nothing else. -/
def CallsSpec (llm : LLM) (env : Env) (um : String) (calls : List (List Message)) : Prop :=
  calls ≠ [] ∧ calls.headD [] = [mkUserMsg um] ∧
  ∀ i, 1 ≤ i → i < calls.length →
    ∃ resp, llm (i - 1) (calls.getD (i - 1) []) = .ok resp ∧
      resp.stop_reason = "tool_use" ∧
      calls.getD i [] =
        [mkUserMsg um, assistantTurn resp.content,
         toolResultsTurn (runToolUses env resp.content)]

theorem callsSpec_append (llm : LLM) (env : Env) (um : String)
    (trace : List (List Message)) (callIdx : Nat) (resp : LLMResponse)
    (hlen : trace.length = callIdx)
    (hc : CallsSpec llm env um trace)
    (hresp : llm (callIdx - 1) (trace.getD (callIdx - 1) []) = .ok resp)
    (hstop : resp.stop_reason = "tool_use") :
    CallsSpec llm env um
      (trace ++ [loopMessages um resp (runToolUses env resp.content)]) := by
  obtain ⟨hne, hhead, hidx⟩ := hc
  have hpos : 0 < trace.length := List.length_pos.mpr hne
  refine ⟨by simp, ?_, ?_⟩
  · cases trace with
    | nil => exact absurd rfl hne
    | cons a l => simpa using hhead
  · intro i h1 hilen
    rw [List.length_append, List.length_singleton] at hilen
    rcases Nat.lt_or_ge i trace.length with hi | hi
    · have hi' : i - 1 < trace.length := by omega
      rw [List.getD_append _ _ _ _ hi, List.getD_append _ _ _ _ hi']
      exact hidx i h1 hi
    · have hieq : i = trace.length := by omega
      subst hieq
      have hi' : trace.length - 1 < trace.length := by omega
      rw [List.getD_append_right _ _ _ _ hi, Nat.sub_self,
        List.getD_append _ _ _ _ hi']
      exact ⟨resp, by rw [hlen] at hi' ⊢; exact hresp, hstop, rfl⟩

theorem orchLoop_callsSpec (llm : LLM) (env : Env) (um : String) :
    ∀ (fuel callIdx : Nat) (resp : LLMResponse) (trace : List (List Message))
      (r : RunResult),
      orchLoop llm env um fuel callIdx resp trace = some r →
      trace.length = callIdx →
      CallsSpec llm env um trace →
      llm (callIdx - 1) (trace.getD (callIdx - 1) []) = .ok resp →
      CallsSpec llm env um r.calls := by
  intro fuel
  induction fuel with
  | zero =>
    intro callIdx resp trace r h hlen hc hresp
    rw [orchLoop] at h
    split at h
    · cases h
    · cases h; exact hc
  | succ f ih =>
    intro callIdx resp trace r h hlen hc hresp
    rw [orchLoop] at h
    dsimp only at h
    split at h
    · rename_i hstop
      split at h
      · cases h
        exact callsSpec_append llm env um trace callIdx resp hlen hc hresp hstop
      · rename_i resp2 hllm
        refine ih (callIdx + 1) resp2 _ r h (by simp [hlen]) ?_ ?_
        · exact callsSpec_append llm env um trace callIdx resp hlen hc hresp hstop
        · have hle : trace.length ≤ callIdx := le_of_eq hlen
          have hz : callIdx - trace.length = 0 := by omega
          rw [Nat.add_sub_cancel, List.getD_append_right _ _ _ _ hle, hz]
          exact hllm
    · cases h; exact hc

/-- C1 (amended). Within one request the turn list is *not* append-only
beyond the first iteration. The first Claude call carries exactly the
original user turn; every subsequent call `i` carries exactly three turns:
the original user turn, the assistant turn holding precisely the content
of the immediately preceding call's response (the tool-request turn that
response produced), and one tool-results turn holding precisely the
results of executing that content's tool requests. The list grows by two
entries only on the first iteration; afterwards the loop replaces the
previous assistant/tool-results pair instead of appending. -/
theorem turn_list_shape (llm : LLM) (env : Env) (fuel : Nat) (command : String)
    (context : List (String × JVal)) (r : RunResult)
    (h : process_command_with_claude llm env fuel command context = some r) :
    CallsSpec llm env (buildUserMessage command context) r.calls := by
  unfold process_command_with_claude at h
  dsimp only at h
  have hc0 : CallsSpec llm env (buildUserMessage command context)
      [[mkUserMsg (buildUserMessage command context)]] :=
    ⟨by simp, rfl, by intro i h1 h2; simp at h2; omega⟩
  cases hl : llm 0 [mkUserMsg (buildUserMessage command context)] with
  | error e => rw [hl] at h; cases h; exact hc0
  | ok resp =>
    rw [hl] at h
    exact orchLoop_callsSpec llm env _ fuel 1 resp _ r h rfl hc0 hl

/-- Witness for the amended C1 on the one-tool scripted run. -/
theorem turn_list_shape_witness :
    CallsSpec oneToolLLM demoEnv (buildUserMessage "modo cinema" [])
      (((process_command_with_claude oneToolLLM demoEnv 5 "modo cinema" []).getD
        ⟨"", []⟩).calls) :=
  turn_list_shape oneToolLLM demoEnv 5 "modo cinema" [] _ rfl
